import Mathlib

/-!
# Verification of the to-do task manager (`src/todoapp.js`)

Shallow embedding of the task-state core of the vanilla-JS to-do application:
the in-memory `tasks` array, the mutation paths driven by the UI event
handlers (add via the form submit handler, toggle via the checkbox change
handler, text edit via `commitEdit`, delete, clear-all), the `localStorage`
persistence codec (`loadTasks` / `saveTasks`), and the derived views
(`pending` / `completed` sub-lists and the counters of `updateCounts`).

Modelling conventions:
* JS `number` timestamps are `Int` (they are integer milliseconds here).
* JS `null` for `completedAt` is `Option.none`.
* A JS function that can throw is embedded with result type `Except`;
  the handlers in this file never throw, which the embedding makes visible
  by always returning `Except.ok`.
* Nondeterministic environment reads (`Date.now()`, the random `uid()`)
  are passed in as explicit arguments.
* `JSON.parse` / `JSON.stringify` are external browser builtins; stored
  strings are abstracted to their parse outcome over a model `JSVal` of
  JS values.
-/

namespace TodoApp

/-- A task object as stored in the `tasks` array (see the `@type` annotation
at src/todoapp.js line 31): `{id, text, createdAt, completed, completedAt}`,
where `completedAt : number | null` is modelled as `Option Int`. -/
structure Task where
  id : String
  text : String
  createdAt : Int
  completed : Bool
  completedAt : Option Int
deriving Repr, DecidableEq, Inhabited

/-- The error taxonomy named by the specification for store operations. The
source never constructs either error; the embedding keeps the type so that
"operation raises E" is statable as `= Except.error E`. -/
inductive JSError where
  | validation : JSError
  | notFound : JSError
deriving Repr, DecidableEq

/-- A patch object passed to `updateTask`: any subset of the mutable fields
`text`, `completed`, `completedAt`. An outer `none` means the key is absent
from the patch object; `completedAt := some none` means the key is present
with value `null`. -/
structure Patch where
  text : Option String
  completed : Option Bool
  completedAt : Option (Option Int)
deriving Repr, DecidableEq

/-- Model of the JS builtin `String.prototype.trim` used at src/todoapp.js
lines 156 and 190: drop leading and trailing whitespace characters (the
ASCII whitespace relevant to this app; JS also trims further Unicode
whitespace, which no input here contains). -/
def jsTrim (s : String) : String :=
  String.mk (((s.data.dropWhile Char.isWhitespace).reverse.dropWhile
    Char.isWhitespace).reverse)

/-- The JS object spread `{ ...tasks[idx], ...patch }` at src/todoapp.js
line 168: keys present in the patch override the task's, all others are
kept; `id` and `createdAt` never occur in a `Patch`. -/
def applyPatch (t : Task) (p : Patch) : Task :=
  { id := t.id
    text := p.text.getD t.text
    createdAt := t.createdAt
    completed := p.completed.getD t.completed
    completedAt := p.completedAt.getD t.completedAt }

/-- `updateTask(id, patch)` (src/todoapp.js lines 165-171): find the first
task with the given id (`findIndex`); if none exists (`idx === -1`) return
with the array untouched, otherwise replace that slot by the patched copy.
The function never throws. -/
def updateTask (id : String) (patch : Patch) (tasks : List Task) :
    Except JSError (List Task) :=
  match tasks.findIdx? (fun t => t.id == id) with
  | none => Except.ok tasks
  | some idx => Except.ok (tasks.set idx (applyPatch (tasks.getD idx default) patch))

/-- The form submit handler (src/todoapp.js lines 188-203): trim the input
value; if the result is empty, return early leaving `tasks` untouched;
otherwise `unshift` a new task built with a fresh `uid()` (passed in as
`newId`), `createdAt = Date.now()` (passed in as `now`), `completed: false`,
`completedAt: null`. Never throws. -/
def addTask (newId : String) (now : Int) (inputValue : String)
    (tasks : List Task) : Except JSError (List Task) :=
  let text := jsTrim inputValue
  if text = "" then Except.ok tasks
  else Except.ok ({ id := newId, text := text, createdAt := now,
                    completed := false, completedAt := none } :: tasks)

/-- `commitEdit` (src/todoapp.js lines 154-163): trim the edit input; if
empty, `alert` and return with no state change; otherwise call `updateTask`
with a text-only patch. Never throws. -/
def commitEdit (inputValue : String) (id : String) (tasks : List Task) :
    Except JSError (List Task) :=
  let newText := jsTrim inputValue
  if newText = "" then Except.ok tasks
  else updateTask id { text := some newText, completed := none, completedAt := none } tasks

/-- The patch built by the checkbox change handler (src/todoapp.js lines
108-114): `{ completed: checkbox.checked, completedAt: checked ? now : null }`. -/
def togglePatch (checked : Bool) (now : Int) : Patch :=
  { text := none
    completed := some checked
    completedAt := some (if checked then some now else none) }

/-- The delete handler (src/todoapp.js line 133):
`tasks = tasks.filter(t => t.id !== task.id)`. -/
def removeTask (id : String) (tasks : List Task) : List Task :=
  tasks.filter (fun t => t.id != id)

/-- The clear-all handler (src/todoapp.js line 209): `tasks = []`. -/
def clearTasks (_tasks : List Task) : List Task := []

/-- `render`'s pending sub-list (src/todoapp.js line 71):
`tasks.filter(t => !t.completed)`, order preserved. -/
def pending (tasks : List Task) : List Task :=
  tasks.filter (fun t => !t.completed)

/-- `render`'s completed sub-list (src/todoapp.js line 72):
`tasks.filter(t => t.completed)`, order preserved. -/
def completed (tasks : List Task) : List Task :=
  tasks.filter (fun t => t.completed)

/-- The three counters shown by `updateCounts` (src/todoapp.js lines 173-183). -/
structure Counts where
  total : Nat
  pending : Nat
  completed : Nat
deriving Repr, DecidableEq

/-- `updateCounts` (src/todoapp.js lines 173-183): `total = tasks.length`,
`pending` counts the not-completed tasks, `completed = total - pending`. -/
def updateCounts (tasks : List Task) : Counts :=
  { total := tasks.length
    pending := (tasks.filter (fun t => !t.completed)).length
    completed := tasks.length - (tasks.filter (fun t => !t.completed)).length }

/-- A model of JS values as produced by `JSON.parse`. -/
inductive JSVal where
  | null : JSVal
  | bool : Bool → JSVal
  | num : Int → JSVal
  | str : String → JSVal
  | arr : List JSVal → JSVal
  | obj : List (String × JSVal) → JSVal
deriving Repr, BEq

/-- `loadTasks()` (src/todoapp.js lines 34-41). `localStorage.getItem`
returning `null` (no slot) is `none`; a stored string is abstracted to the
outcome of the external builtin `JSON.parse` on it: `Except.error ()` when
parsing throws (caught by the `try`/`catch`, which returns `[]`), and
`Except.ok v` when parsing yields the JS value `v`, which `loadTasks`
returns as-is with no validation of its shape. The function itself never
throws. -/
def loadTasks (slot : Option (Except Unit JSVal)) : JSVal :=
  match slot with
  | none => JSVal.arr []
  | some (Except.error _) => JSVal.arr []
  | some (Except.ok v) => v

/-- The JS value that `JSON.stringify` produces for one task inside
`saveTasks` — the persistence format of the specification: `completedAt`
serializes as a number or `null`. -/
def taskToJson (t : Task) : JSVal :=
  JSVal.obj [("id", JSVal.str t.id),
             ("text", JSVal.str t.text),
             ("createdAt", JSVal.num t.createdAt),
             ("completed", JSVal.bool t.completed),
             ("completedAt", match t.completedAt with
                             | none => JSVal.null
                             | some n => JSVal.num n)]

/-- `saveTasks()` (src/todoapp.js lines 43-46): the JSON value written to
the storage slot, `JSON.stringify(tasks)` at the parsed-value level. -/
def saveTasks (tasks : List Task) : JSVal :=
  JSVal.arr (tasks.map taskToJson)

/-- Modelled from the spec: reading a JS value back as a `Task` following
the persistence shape of §6
(`{id: string, text: string, createdAt: number, completed: boolean,
completedAt: number | null}`). The source performs no such validation —
this definition exists to state what "parses as the array-of-task shape"
means. -/
def taskFromJson (v : JSVal) : Option Task :=
  match v with
  | JSVal.obj [("id", JSVal.str i), ("text", JSVal.str s),
               ("createdAt", JSVal.num c), ("completed", JSVal.bool b),
               ("completedAt", ca)] =>
    match ca with
    | JSVal.null => some { id := i, text := s, createdAt := c,
                           completed := b, completedAt := none }
    | JSVal.num n => some { id := i, text := s, createdAt := c,
                            completed := b, completedAt := some n }
    | _ => none
  | _ => none

/-- Modelled from the spec: reading a JS value back as the full task
sequence of the persistence shape of §6. -/
def tasksFromJson (v : JSVal) : Option (List Task) :=
  match v with
  | JSVal.arr elems => elems.mapM taskFromJson
  | _ => none

/-- The data-model invariant of spec §3: `completedAt` is present if and
only if `completed` is true, for every task of the sequence. -/
def CompletedIffTimestamped (tasks : List Task) : Prop :=
  ∀ t ∈ tasks, t.completedAt.isSome = t.completed

instance (tasks : List Task) : Decidable (CompletedIffTimestamped tasks) :=
  inferInstanceAs (Decidable (∀ t ∈ tasks, t.completedAt.isSome = t.completed))

/-- One change of the in-memory `tasks` array as the UI event handlers
actually perform it: add via the form submit handler, completion toggle via
the checkbox handler (which always supplies `completedAt` matching
`completed`), text edit via `commitEdit`, delete, and clear-all. -/
inductive UIStep : List Task → List Task → Prop where
  | add (newId : String) (now : Int) (inputValue : String)
      (tasks tasks' : List Task) :
      addTask newId now inputValue tasks = Except.ok tasks' →
      UIStep tasks tasks'
  | toggle (id : String) (checked : Bool) (now : Int)
      (tasks tasks' : List Task) :
      updateTask id (togglePatch checked now) tasks = Except.ok tasks' →
      UIStep tasks tasks'
  | edit (inputValue id : String) (tasks tasks' : List Task) :
      commitEdit inputValue id tasks = Except.ok tasks' →
      UIStep tasks tasks'
  | remove (id : String) (tasks : List Task) :
      UIStep tasks (removeTask id tasks)
  | clear (tasks : List Task) :
      UIStep tasks (clearTasks tasks)

/-- A concrete task used by witnesses and counterexamples. -/
def demoTask : Task :=
  { id := "a1", text := "Buy milk", createdAt := 100,
    completed := false, completedAt := none }

/-- A second concrete task used by witnesses. -/
def demoTask2 : Task :=
  { id := "b2", text := "Walk dog", createdAt := 200,
    completed := true, completedAt := some 300 }

/-!
## Helper lemmas
-/

/-- Equation lemma: `updateTask` when no task matches the id. -/
theorem updateTask_eq_none (id : String) (patch : Patch) (tasks : List Task)
    (hfind : tasks.findIdx? (fun t => t.id == id) = none) :
    updateTask id patch tasks = Except.ok tasks := by
  unfold updateTask
  rw [hfind]

/-- Equation lemma: `updateTask` when the first match is at index `i`. -/
theorem updateTask_found (id : String) (patch : Patch) (tasks : List Task)
    (i : Nat) (hfind : tasks.findIdx? (fun t => t.id == id) = some i) :
    updateTask id patch tasks
      = Except.ok (tasks.set i (applyPatch (tasks.getD i default) patch)) := by
  unfold updateTask
  rw [hfind]

/-- Equation lemma: add with whitespace-only input is the identity. -/
theorem addTask_eq_of_empty (newId : String) (now : Int) (inputValue : String)
    (tasks : List Task) (h : jsTrim inputValue = "") :
    addTask newId now inputValue tasks = Except.ok tasks := by
  simp [addTask, h]

/-- Equation lemma: add with non-blank input prepends the new task. -/
theorem addTask_eq_of_nonempty (newId : String) (now : Int) (inputValue : String)
    (tasks : List Task) (h : ¬ jsTrim inputValue = "") :
    addTask newId now inputValue tasks
      = Except.ok ({ id := newId, text := jsTrim inputValue, createdAt := now,
                     completed := false, completedAt := none } :: tasks) := by
  simp [addTask, h]

/-- Equation lemma: `commitEdit` with a blank edit box is the identity. -/
theorem commitEdit_eq_of_empty (inputValue id : String) (tasks : List Task)
    (h : jsTrim inputValue = "") :
    commitEdit inputValue id tasks = Except.ok tasks := by
  simp [commitEdit, h]

/-- Equation lemma: `commitEdit` with a non-blank edit box delegates to
`updateTask` with a text-only patch carrying the trimmed text. -/
theorem commitEdit_eq_of_nonempty (inputValue id : String) (tasks : List Task)
    (h : ¬ jsTrim inputValue = "") :
    commitEdit inputValue id tasks
      = updateTask id
          { text := some (jsTrim inputValue), completed := none, completedAt := none }
          tasks := by
  simp [commitEdit, h]

/-- If the patch keeps the `completedAt`/`completed` agreement of the task
it is applied to, `updateTask` preserves the data-model invariant. -/
theorem updateTask_preserves_inv (id : String) (patch : Patch)
    (tasks tasks' : List Task)
    (hinv : CompletedIffTimestamped tasks)
    (hpatch : ∀ t ∈ tasks, t.completedAt.isSome = t.completed →
      (applyPatch t patch).completedAt.isSome = (applyPatch t patch).completed)
    (hup : updateTask id patch tasks = Except.ok tasks') :
    CompletedIffTimestamped tasks' := by
  cases hfind : tasks.findIdx? (fun t => t.id == id) with
  | none =>
      rw [updateTask_eq_none id patch tasks hfind] at hup
      injection hup with hup
      subst hup
      exact hinv
  | some i =>
      rw [updateTask_found id patch tasks i hfind] at hup
      injection hup with hup
      subst hup
      intro t ht
      rcases List.mem_or_eq_of_mem_set ht with hmem | heq
      · exact hinv t hmem
      · subst heq
        have hi : i < tasks.length :=
          (List.findIdx?_eq_some_iff_getElem.mp hfind).fst
        have hgd : tasks.getD i default ∈ tasks := by
          rw [List.getD_eq_getElem?_getD, List.getElem?_eq_getElem hi,
            Option.getD_some]
          exact List.getElem_mem hi
        exact hpatch _ hgd (hinv _ hgd)

/-- Writing back the element already held at a position is the identity. -/
theorem list_set_self {α : Type} {l : List α} {i : Nat} (h : i < l.length) :
    l.set i l[i] = l := by
  apply List.ext_getElem?
  intro n
  by_cases hn : i = n
  · subst hn
    rw [List.getElem?_set_self h, List.getElem?_eq_getElem h]
  · rw [List.getElem?_set_ne hn]

/-- One task serializes to the persistence format and reads back unchanged. -/
theorem taskFromJson_taskToJson (t : Task) :
    taskFromJson (taskToJson t) = some t := by
  cases t with
  | mk i s c b ca => cases ca <;> rfl

/-- The serialized form of a task sequence reads back unchanged. -/
theorem mapM_taskFromJson_map (tasks : List Task) :
    (tasks.map taskToJson).mapM taskFromJson = some tasks := by
  induction tasks with
  | nil => rfl
  | cons t ts ih =>
      rw [List.map_cons, List.mapM_cons, taskFromJson_taskToJson, ih]
      rfl

/-!
## Claim theorems
-/

/-- C1 counterexample: calling `updateTask` with an id that no task has
returns normally with the sequence unchanged; it does not raise
`NotFoundError` (src/todoapp.js line 167 reads `if (idx === -1) return;`). -/
theorem updateTask_unknown_id_counterexample :
    updateTask "zz" { text := some "x", completed := none, completedAt := none } [demoTask]
      = Except.ok [demoTask] ∧
    updateTask "zz" { text := some "x", completed := none, completedAt := none } [demoTask]
      ≠ Except.error JSError.notFound := by
  refine ⟨rfl, ?_⟩
  intro h
  rw [show updateTask "zz" { text := some "x", completed := none, completedAt := none }
        [demoTask] = Except.ok [demoTask] from rfl] at h
  exact Except.noConfusion h

/-- C1 amended: for every id that no task in the current sequence has,
`updateTask(id, patch)` leaves the task sequence unchanged and returns
without raising any error — a silent no-op rather than `NotFoundError`. -/
theorem updateTask_unknown_id_noop (id : String) (patch : Patch)
    (tasks : List Task) (h : ∀ t ∈ tasks, t.id ≠ id) :
    updateTask id patch tasks = Except.ok tasks := by
  unfold updateTask
  have hnone : tasks.findIdx? (fun t => t.id == id) = none := by
    rw [List.findIdx?_eq_none_iff]
    intro t ht
    exact beq_eq_false_iff_ne.mpr (h t ht)
  rw [hnone]

/-- Witness for the C1 amended theorem at a concrete unknown id. -/
theorem updateTask_unknown_id_noop_witness :
    (∀ t ∈ [demoTask], t.id ≠ "zz") ∧
    updateTask "zz" { text := some "y", completed := none, completedAt := none } [demoTask]
      = Except.ok [demoTask] :=
  ⟨by decide, updateTask_unknown_id_noop "zz"
    { text := some "y", completed := none, completedAt := none } [demoTask] (by decide)⟩

/-- C2 counterexample: submitting whitespace-only input returns early with
the sequence unchanged; it does not raise `ValidationError`
(src/todoapp.js line 191 reads `if (!text) return;`). -/
theorem addTask_empty_counterexample :
    addTask "n1" 0 "   " [] = Except.ok [] ∧
    addTask "n1" 0 "   " [] ≠ Except.error JSError.validation := by
  refine ⟨rfl, ?_⟩
  intro h
  rw [show addTask "n1" 0 "   " [] = Except.ok [] from rfl] at h
  exact Except.noConfusion h

/-- C2 amended: for every input text whose trimmed form is empty, the add
operation leaves the task sequence unchanged and returns without raising
any error — a silent no-op rather than `ValidationError`. -/
theorem addTask_empty_noop (newId : String) (now : Int) (inputValue : String)
    (tasks : List Task) (h : jsTrim inputValue = "") :
    addTask newId now inputValue tasks = Except.ok tasks := by
  simp [addTask, h]

/-- Witness for the C2 amended theorem at the concrete input `"   "`. -/
theorem addTask_empty_noop_witness :
    jsTrim "   " = "" ∧ addTask "n1" 0 "   " [demoTask] = Except.ok [demoTask] :=
  ⟨by decide, addTask_empty_noop "n1" 0 "   " [demoTask] (by decide)⟩

/-- C3 counterexample: a persisted value that is valid JSON but not of the
array-of-task shape (here the number `0`) is returned by `loadTasks` as-is,
not replaced by an empty task sequence — the `try`/`catch` only guards
against `JSON.parse` throwing, not against wrong shapes. -/
theorem loadTasks_wrong_shape_counterexample :
    tasksFromJson (JSVal.num 0) = none ∧
    loadTasks (some (Except.ok (JSVal.num 0))) = JSVal.num 0 ∧
    loadTasks (some (Except.ok (JSVal.num 0))) ≠ JSVal.arr [] := by
  refine ⟨rfl, rfl, ?_⟩
  intro h
  rw [show loadTasks (some (Except.ok (JSVal.num 0))) = JSVal.num 0 from rfl] at h
  exact JSVal.noConfusion h

/-- C3 amended: `loadTasks` never raises to the caller; an absent slot or a
value on which `JSON.parse` throws yields the empty sequence, but a value
that parses as JSON of any other shape is loaded verbatim, with no
validation against the array-of-task shape. -/
theorem loadTasks_spec :
    loadTasks none = JSVal.arr [] ∧
    (∀ e : Unit, loadTasks (some (Except.error e)) = JSVal.arr []) ∧
    (∀ v : JSVal, loadTasks (some (Except.ok v)) = v) :=
  ⟨rfl, fun _ => rfl, fun _ => rfl⟩

/-- C4 counterexample: editing a task's text to a whitespace-only string is
rejected by `commitEdit` with an `alert` and an early return — the sequence
is unchanged and no `ValidationError` is raised
(src/todoapp.js lines 157-160). -/
theorem commitEdit_empty_counterexample :
    jsTrim "   " = "" ∧
    commitEdit "   " "a1" [demoTask] = Except.ok [demoTask] ∧
    commitEdit "   " "a1" [demoTask] ≠ Except.error JSError.validation := by
  refine ⟨rfl, rfl, ?_⟩
  intro h
  rw [show commitEdit "   " "a1" [demoTask] = Except.ok [demoTask] from rfl] at h
  exact Except.noConfusion h

/-- C4 amended: for every existing task id (first match at index `i`), a
text edit through `commitEdit`: if the new text trims to empty the edit is
rejected with no state change and no error (an `alert`, not a
`ValidationError`); otherwise the stored text of that task after the update
equals the trimmed new text. -/
theorem commitEdit_spec (inputValue id : String) (tasks : List Task) (i : Nat)
    (hfind : tasks.findIdx? (fun t => t.id == id) = some i) :
    (jsTrim inputValue = "" → commitEdit inputValue id tasks = Except.ok tasks) ∧
    (jsTrim inputValue ≠ "" →
      commitEdit inputValue id tasks
        = Except.ok (tasks.set i
            { tasks.getD i default with text := jsTrim inputValue }) ∧
      ((tasks.set i { tasks.getD i default with text := jsTrim inputValue
        }).getD i default).text = jsTrim inputValue) := by
  constructor
  · intro h
    simp [commitEdit, h]
  · intro h
    have hi : i < tasks.length :=
      (List.findIdx?_eq_some_iff_getElem.mp hfind).fst
  -- continued below
    refine ⟨?_, ?_⟩
    · have hmain : commitEdit inputValue id tasks
          = updateTask id
              { text := some (jsTrim inputValue), completed := none, completedAt := none }
              tasks := by
        simp [commitEdit, h]
      rw [hmain]
      unfold updateTask
      rw [hfind]
      rfl
    · rw [List.getD_eq_getElem?_getD, List.getElem?_set_self hi, Option.getD_some]

/-- Witness for the C4 amended theorem at a concrete edit. -/
theorem commitEdit_spec_witness :
    [demoTask].findIdx? (fun t => t.id == "a1") = some 0 ∧
    jsTrim "  pay rent  " ≠ "" ∧
    commitEdit "  pay rent  " "a1" [demoTask]
      = Except.ok ([demoTask].set 0
          { [demoTask].getD 0 default with text := jsTrim "  pay rent  " }) :=
  ⟨by decide, by decide,
    ((commitEdit_spec "  pay rent  " "a1" [demoTask] 0 (by decide)).2 (by decide)).1⟩

/-- C5 counterexample: `updateTask` trusts the caller for `completedAt`; a
patch that sets `completed := true` without supplying a `completedAt` key
produces a state in which a completed task has no completion timestamp,
violating the invariant. -/
theorem invariant_after_update_counterexample :
    CompletedIffTimestamped [demoTask] ∧
    updateTask "a1" { text := none, completed := some true, completedAt := none } [demoTask]
      = Except.ok [{ id := "a1", text := "Buy milk", createdAt := 100,
                     completed := true, completedAt := none }] ∧
    ¬ CompletedIffTimestamped [{ id := "a1", text := "Buy milk", createdAt := 100,
                                 completed := true, completedAt := none }] :=
  ⟨by decide, rfl, by decide⟩

/-- C5 amended: "completedAt present iff completed" holds after every store
operation as the UI actually invokes it — add, checkbox toggle (whose patch
always pairs `completed` with a matching `completedAt`), text edit via
`commitEdit`, remove, and clear — provided it held beforehand. `updateTask`
under an arbitrary patch, and `loadTasks` of unvalidated data, are not
covered, as the counterexample shows. -/
theorem uiStep_preserves_invariant (tasks tasks' : List Task)
    (hinv : CompletedIffTimestamped tasks) (hstep : UIStep tasks tasks') :
    CompletedIffTimestamped tasks' := by
  cases hstep with
  | add newId now inputValue _ _ hadd =>
      by_cases he : jsTrim inputValue = ""
      · rw [addTask_eq_of_empty _ _ _ _ he] at hadd
        injection hadd with hadd
        subst hadd
        exact hinv
      · rw [addTask_eq_of_nonempty _ _ _ _ he] at hadd
        injection hadd with hadd
        subst hadd
        intro t ht
        rcases List.mem_cons.mp ht with rfl | hmem
        · rfl
        · exact hinv t hmem
  | toggle id checked now _ _ hup =>
      refine updateTask_preserves_inv id (togglePatch checked now)
        tasks tasks' hinv ?_ hup
      intro t _ _
      cases checked <;> rfl
  | edit inputValue id _ _ hed =>
      by_cases he : jsTrim inputValue = ""
      · rw [commitEdit_eq_of_empty _ _ _ he] at hed
        injection hed with hed
        subst hed
        exact hinv
      · rw [commitEdit_eq_of_nonempty _ _ _ he] at hed
        refine updateTask_preserves_inv id _ tasks tasks' hinv ?_ hed
        intro t _ hts
        exact hts
  | remove id _ =>
      intro t ht
      exact hinv t (List.mem_of_mem_filter ht)
  | clear _ =>
      intro t ht
      exact absurd ht (List.not_mem_nil t)

/-- Witness for the C5 amended theorem at a concrete remove step. -/
theorem uiStep_preserves_invariant_witness :
    CompletedIffTimestamped [demoTask, demoTask2] ∧
    CompletedIffTimestamped (removeTask "a1" [demoTask, demoTask2]) :=
  ⟨by decide, uiStep_preserves_invariant [demoTask, demoTask2] _ (by decide)
    (UIStep.remove "a1" [demoTask, demoTask2])⟩

/-- C6: serializing the current snapshot to the persistence format and
reloading it into a fresh store yields a snapshot whose tasks are
element-for-element equal (same `id`, `text`, `createdAt`, `completed`,
`completedAt`) and in the same order as the original. -/
theorem save_load_roundtrip (tasks : List Task) :
    loadTasks (some (Except.ok (saveTasks tasks))) = saveTasks tasks ∧
    tasksFromJson (loadTasks (some (Except.ok (saveTasks tasks)))) = some tasks :=
  ⟨rfl, mapM_taskFromJson_map tasks⟩

/-- C7: on input whose trimmed form is non-empty, the add operation builds
a task carrying the freshly generated id, `completed = false` and
`completedAt` absent, prepends it to the sequence (so it is first in the
snapshot), and raises the total count by exactly 1. -/
theorem addTask_success (newId : String) (now : Int) (inputValue : String)
    (tasks : List Task) (h : jsTrim inputValue ≠ "") :
    addTask newId now inputValue tasks
      = Except.ok ({ id := newId, text := jsTrim inputValue, createdAt := now,
                     completed := false, completedAt := none } :: tasks) ∧
    (updateCounts ({ id := newId, text := jsTrim inputValue, createdAt := now,
                     completed := false, completedAt := none } :: tasks)).total
      = (updateCounts tasks).total + 1 :=
  ⟨addTask_eq_of_nonempty newId now inputValue tasks h, rfl⟩

/-- Witness for C7 at a concrete non-blank input. -/
theorem addTask_success_witness :
    jsTrim " hi " ≠ "" ∧
    (addTask "n1" 5 " hi " [demoTask]
        = Except.ok ({ id := "n1", text := jsTrim " hi ", createdAt := 5,
                       completed := false, completedAt := none } :: [demoTask]) ∧
      (updateCounts ({ id := "n1", text := jsTrim " hi ", createdAt := 5,
                       completed := false, completedAt := none } :: [demoTask])).total
        = (updateCounts [demoTask]).total + 1) :=
  ⟨by decide, addTask_success "n1" 5 " hi " [demoTask] (by decide)⟩

/-- C8: `pending` and `completed` partition the snapshot — every task of
the snapshot lies in exactly one of the two, together they are a
permutation of the snapshot, their intersection is empty, and each is an
order-preserving sublist of the snapshot. -/
theorem pending_completed_partition (tasks : List Task) :
    (∀ t ∈ tasks, (t ∈ pending tasks ∧ t ∉ completed tasks) ∨
       (t ∈ completed tasks ∧ t ∉ pending tasks)) ∧
    List.Perm (pending tasks ++ completed tasks) tasks ∧
    (∀ t, ¬ (t ∈ pending tasks ∧ t ∈ completed tasks)) ∧
    List.Sublist (pending tasks) tasks ∧
    List.Sublist (completed tasks) tasks := by
  refine ⟨?_, ?_, ?_, List.filter_sublist tasks, List.filter_sublist tasks⟩
  · intro t ht
    by_cases hc : t.completed
    · right
      refine ⟨List.mem_filter.mpr ⟨ht, hc⟩, ?_⟩
      intro hp
      have hbad := (List.mem_filter.mp hp).2
      simp [hc] at hbad
    · left
      refine ⟨List.mem_filter.mpr ⟨ht, by simp [hc]⟩, ?_⟩
      intro hp
      exact hc (List.mem_filter.mp hp).2
  · have hperm := List.filter_append_perm (fun t : Task => t.completed) tasks
    exact List.Perm.trans List.perm_append_comm hperm
  · rintro t ⟨hp, hc⟩
    have h1 := (List.mem_filter.mp hp).2
    have h2 := (List.mem_filter.mp hc).2
    simp [h2] at h1

/-- Witness for C8 membership at a concrete snapshot and task. -/
theorem pending_completed_partition_witness :
    demoTask ∈ [demoTask] ∧
    ((demoTask ∈ pending [demoTask] ∧ demoTask ∉ completed [demoTask]) ∨
     (demoTask ∈ completed [demoTask] ∧ demoTask ∉ pending [demoTask])) :=
  ⟨by decide, (pending_completed_partition [demoTask]).1 demoTask (by decide)⟩

/-- C9: a successful update replaces only the first task carrying the
requested id — the length is unchanged, the sequence of ids is unchanged,
and every position holding a task with a different id is untouched in all
fields. -/
theorem updateTask_frame (id : String) (patch : Patch) (tasks : List Task)
    (hex : ∃ t ∈ tasks, t.id = id) :
    ∃ tasks', updateTask id patch tasks = Except.ok tasks' ∧
      tasks'.length = tasks.length ∧
      tasks'.map Task.id = tasks.map Task.id ∧
      ∀ j : Nat, j < tasks.length → (tasks.getD j default).id ≠ id →
        tasks'.getD j default = tasks.getD j default := by
  rcases hgi : tasks.findIdx? (fun t => t.id == id) with _ | i
  · exfalso
    rw [List.findIdx?_eq_none_iff] at hgi
    obtain ⟨t0, ht0, hid0⟩ := hex
    exact (beq_eq_false_iff_ne.mp (hgi t0 ht0)) hid0
  · obtain ⟨hi, hpi, -⟩ := List.findIdx?_eq_some_iff_getElem.mp hgi
    have hgd : tasks.getD i default = tasks[i] := by
      rw [List.getD_eq_getElem?_getD, List.getElem?_eq_getElem hi, Option.getD_some]
    refine ⟨tasks.set i (applyPatch (tasks.getD i default) patch),
      updateTask_found id patch tasks i hgi, List.length_set tasks i _, ?_, ?_⟩
    · rw [List.map_set, hgd]
      have hid : (applyPatch tasks[i] patch).id = tasks[i].id := rfl
      rw [hid]
      have hi2 : i < (tasks.map Task.id).length := by simpa using hi
      have hmap : tasks[i].id = (tasks.map Task.id)[i] := by
        rw [List.getElem_map]
      rw [hmap]
      exact list_set_self hi2
    · intro j hj hne
      have hji : j ≠ i := by
        intro hj_eq
        subst hj_eq
        rw [hgd] at hne
        exact hne (beq_iff_eq.mp hpi)
      simp only [List.getD_eq_getElem?_getD, List.getElem?_set_ne (Ne.symm hji)]

/-- Witness for C9 at a concrete existing id. -/
theorem updateTask_frame_witness :
    (∃ t ∈ [demoTask, demoTask2], t.id = "b2") ∧
    (∃ tasks', updateTask "b2"
        { text := none, completed := some false, completedAt := some none }
        [demoTask, demoTask2] = Except.ok tasks' ∧
      tasks'.length = [demoTask, demoTask2].length ∧
      tasks'.map Task.id = [demoTask, demoTask2].map Task.id ∧
      ∀ j : Nat, j < [demoTask, demoTask2].length →
        ([demoTask, demoTask2].getD j default).id ≠ "b2" →
        tasks'.getD j default = [demoTask, demoTask2].getD j default) :=
  ⟨⟨demoTask2, by decide, rfl⟩, updateTask_frame "b2"
    { text := none, completed := some false, completedAt := some none }
    [demoTask, demoTask2] ⟨demoTask2, by decide, rfl⟩⟩

/-- C10: the text stored in the task created by a successful add equals the
trimmed input — leading and trailing whitespace is stripped before the task
object is constructed. -/
theorem addTask_stores_trimmed_text (newId : String) (now : Int)
    (inputValue : String) (tasks : List Task) (h : jsTrim inputValue ≠ "") :
    ∃ t : Task, addTask newId now inputValue tasks = Except.ok (t :: tasks) ∧
      t.text = jsTrim inputValue :=
  ⟨{ id := newId, text := jsTrim inputValue, createdAt := now,
     completed := false, completedAt := none },
   addTask_eq_of_nonempty newId now inputValue tasks h, rfl⟩

/-- Witness for C10 at a concrete padded input. -/
theorem addTask_stores_trimmed_text_witness :
    jsTrim "  Buy milk  " ≠ "" ∧
    (∃ t : Task, addTask "n2" 7 "  Buy milk  " []
        = Except.ok (t :: []) ∧ t.text = jsTrim "  Buy milk  ") :=
  ⟨by decide, addTask_stores_trimmed_text "n2" 7 "  Buy milk  " [] (by decide)⟩

end TodoApp
